import Mathlib

/-!
Shallow embedding of the mimoCoRB controller (`run_daq.py`) and of the
histogram accumulator (`mimocorb/histogram_buffer.py`).

Python values read from YAML files are modelled by `YVal`; the Python
exceptions the controller raises or catches are modelled by `PyErr`.
Python dictionaries are modelled by association lists in insertion order,
which matches dict iteration order.  File-system contents (config files)
and importable modules are passed in as explicit environments.
-/

namespace Mimo

/-- The Python exceptions relevant to `run_daq.py`. `nameError` stands for
`UnboundLocalError` (a subclass of `NameError`). -/
inductive PyErr where
  | keyError (k : String)
  | typeError (m : String)
  | nameError (v : String)
  | runtimeError (m : String)
  | fileNotFound (p : String)
deriving DecidableEq

/-- A YAML value as loaded by `yaml.load`. -/
inductive YVal where
  | yint (n : Int)
  | ystr (s : String)
  | ynull
  | ydict (d : List (String × YVal))

/-- Association-list lookup (Python `d[k]` on a dict, successful case). -/
def lookupStr {α : Type} : List (String × α) → String → Option α
  | [], _ => none
  | (k, v) :: t, s => if k = s then some v else lookupStr t s

/-- Python `d[k] = x` on a dict: replace in place, else append. -/
def dsetAssoc : List (String × YVal) → String → YVal → List (String × YVal)
  | [], k, x => [(k, x)]
  | (k', v') :: t, k, x => if k' = k then (k, x) :: t else (k', v') :: dsetAssoc t k x

/-- Python `v[k]` on a YAML value: `KeyError` on a missing dict key,
`TypeError` when the value is not subscriptable by a string. -/
def pyIndex : YVal → String → Except PyErr YVal
  | .ydict d, k =>
    match lookupStr d k with
    | some v => .ok v
    | none => .error (.keyError k)
  | .ystr _, k => .error (.typeError ("string indices must be integers: " ++ k))
  | _, k => .error (.typeError ("value is not subscriptable: " ++ k))

/-- Substring test on character lists. -/
def listHasSub (l sub : List Char) : Bool :=
  (List.range (l.length + 1)).any (fun i => sub.isPrefixOf (l.drop i))

/-- Python `k in v`: key test on dicts, substring test on strings,
`TypeError` otherwise. -/
def pyContains : YVal → String → Except PyErr Bool
  | .ydict d, k => .ok (d.any (fun p => p.1 == k))
  | .ystr s, k => .ok (listHasSub s.toList k.toList)
  | _, _ => .error (.typeError "argument is not iterable")

/-- Python `v[k] = x` on a YAML value. -/
def pySetItem : YVal → String → YVal → Except PyErr YVal
  | .ydict d, k, x => .ok (.ydict (dsetAssoc d k x))
  | _, _, _ => .error (.typeError "object does not support item assignment")

/-- Python `p.split("/")` at the character level. -/
def splitSlash : List Char → List (List Char)
  | [] => [[]]
  | c :: t =>
    let r := splitSlash t
    if c = '/' then [] :: r
    else
      match r with
      | [] => [[c]]
      | h :: t' => (c :: h) :: t'

/-- The `/`-separated components of a path. -/
def pathParts (p : String) : List String :=
  (splitSlash p.toList).map List.asString

/-- `"/".join(parts)`. -/
def joinSlash : List String → String
  | [] => ""
  | [x] => x
  | x :: t => x ++ "/" ++ joinSlash t

/-- `os.path.dirname`: everything before the final path separator. -/
def dirnameOf (p : String) : String :=
  joinSlash ((pathParts p).dropLast)

/-- `os.path.basename`: everything after the final path separator. -/
def basenameOf (p : String) : String :=
  (pathParts p).getLastD ""

/-- `pathlib.Path(p).name`: the final nonempty path component. -/
def pyName (p : String) : String :=
  ((pathParts p).filter (fun c => c ≠ "")).getLastD ""

/-- `os.path.abspath` relative to a fixed working directory
(no `..`/`.` normalization, which the claims do not need). -/
def abspathIn (cwd p : String) : String :=
  if ("/".toList).isPrefixOf p.toList then p else cwd ++ "/" ++ p

/-- Index of the last `'.'` of a name, Python `name.rfind('.')` (found case). -/
def rfindDot (cs : List Char) : Option Nat :=
  ((cs.enum.filter (fun p => p.2 == '.')).getLast?).map (fun p => p.1)

/-- `pathlib.Path(p).stem`: the final component without its last suffix;
CPython keeps the name whole unless `0 < i < len(name) - 1` for the last
dot index `i`. -/
def pyStem (p : String) : String :=
  let name := pyName p
  let cs := name.toList
  match rfindDot cs with
  | some i => if 0 < i ∧ i < cs.length - 1 then (cs.take i).asString else name
  | none => name

/-- First index at which `sub` occurs in the list, if any. -/
def findSub (sub : List Char) : List Char → Option Nat
  | [] => if sub.isPrefixOf ([] : List Char) then some 0 else none
  | c :: t => if sub.isPrefixOf (c :: t) then some 0 else (findSub sub t).map (fun n => n + 1)

/-- Python `str.find`: index of the first occurrence, `-1` when absent. -/
def strFind (cs sub : List Char) : Int :=
  match findSub sub cs with
  | some n => (n : Int)
  | none => -1

/-- Python slice `s[:i]`, including the negative-index convention. -/
def pySliceTo (cs : List Char) (i : Int) : List Char :=
  if 0 ≤ i then cs.take i.toNat else cs.take (((cs.length : Int) + i).toNat)

/-- `time.localtime()` fields used by `run_daq.py`. -/
structure TimeStamp where
  tm_year : Nat
  tm_mon : Nat
  tm_mday : Nat
  tm_hour : Nat
  tm_min : Nat
  tm_sec : Nat
deriving DecidableEq

/-- Zero-padded decimal, Python `"{:0wd}".format(n)`. -/
def padZ (w : Nat) (n : Nat) : String :=
  let s := toString n
  (List.replicate (w - s.length) '0').asString ++ s

/-- The `{:04d}-{:02d}-{:02d}_{:02d}{:02d}{:02d}` time code of run_daq.py. -/
def timeCode (t : TimeStamp) : String :=
  padZ 4 t.tm_year ++ "-" ++ padZ 2 t.tm_mon ++ "-" ++ padZ 2 t.tm_mday ++ "_" ++
    padZ 2 t.tm_hour ++ padZ 2 t.tm_min ++ padZ 2 t.tm_sec

/-- run_daq.py lines 288-293: the output directory path
`"target/" + template_name[:template_name.find("setup")] + timecode + "/"`,
where `template_name` is the stem of the setup file name. -/
def targetDirOf (setup_filename : String) (t : TimeStamp) : String :=
  let template0 := (pyStem setup_filename).toList
  let template := pySliceTo template0 (strFind template0 ("setup".toList))
  "target/" ++ template.asString ++ timeCode t ++ "/"

/-- The `Fkt_main` entry of the `Functions` section. -/
structure FktMain where
  runtime : Option YVal
  config_file : Option String

/-- One `Fkt_k` (k ≥ 1) worker definition of the `Functions` section. -/
structure WorkerDef where
  file_name : String
  fkt_name : String
  num_process : Nat
  RB_assign : Option (List (String × String))
  config_file : Option String

/-- The `Functions` section: `Fkt_main` followed by the worker entries. -/
structure FunctionsDict where
  fkt_main : FktMain
  workers : List WorkerDef

/-- A `data_type` entry of a ring-buffer definition: a plain string, a dict
of `[field, type]` pairs, or anything else. -/
inductive DType where
  | dstr (s : String)
  | ddict (d : List (String × String × String))
  | dother
deriving DecidableEq

/-- One `RB_k` entry of the `RingBuffer` section. -/
structure RBSpec where
  number_of_slots : Nat
  channel_per_slot : Nat
  data_type : DType
deriving DecidableEq

/-- The state held by `buffer_control.__init__` that `setup_buffers` and
`setup_workers` read. -/
structure buffer_control where
  buffers_dict : List (String × RBSpec)
  functions_dict : FunctionsDict
  out_dir : String

/-- The canonical numpy scalar type names accepted by `np.dtype`
(the closed set the setup language uses). -/
def npDtypeNames : List String :=
  ["float", "float16", "float32", "float64", "double",
   "int", "int8", "int16", "int32", "int64",
   "uint8", "uint16", "uint32", "uint64", "bool"]

/-- A lowered numpy dtype. -/
inductive NpDType where
  | scalar (s : String)
  | record (fields : List (String × String))
deriving DecidableEq

/-- run_daq.py lines 59-62: lower the `[field, type]` pairs of a dict-valued
`data_type`; `np.dtype` raises `TypeError` on an unknown type name. -/
def mkRecordFields : List (String × String × String) → Except PyErr (List (String × String))
  | [] => .ok []
  | (_, fname, tname) :: t =>
    if npDtypeNames.contains tname then
      match mkRecordFields t with
      | .ok r => .ok ((fname, tname) :: r)
      | .error e => .error e
    else .error (.typeError ("data type '" ++ tname ++ "' not understood"))

/-- run_daq.py lines 57-66: lowering of one `data_type` entry. -/
def mkDtype : DType → Except PyErr NpDType
  | .dstr s =>
    if npDtypeNames.contains s then .ok (.scalar s)
    else .error (.typeError ("data type '" ++ s ++ "' not understood"))
  | .ddict d =>
    match mkRecordFields d with
    | .ok fs => .ok (.record fs)
    | .error e => .error e
  | .dother => .error (.runtimeError "Ring buffer data type is unknown!")

/-- A created ring buffer (`bm.NewBuffer`), as far as the controller sees it. -/
structure RingBuf where
  name : String
  number_of_slots : Nat
  values_per_slot : Nat
  dtype : NpDType
deriving DecidableEq

/-- run_daq.py lines 42-70 with the running index `i`: create the ring
buffers in declaration order, checking the `RB_i` naming convention and
lowering the data types. -/
def setup_buffers_from (i : Nat) : List (String × RBSpec) → Except PyErr (List RingBuf)
  | [] => .ok []
  | (name, spec) :: rest =>
    if name = "RB_" ++ toString i then
      match mkDtype spec.data_type with
      | .error e => .error e
      | .ok dt =>
        match setup_buffers_from (i + 1) rest with
        | .error e => .error e
        | .ok rbs =>
          .ok ({ name := name, number_of_slots := spec.number_of_slots,
                 values_per_slot := spec.channel_per_slot, dtype := dt } :: rbs)
    else .error (.runtimeError ("Ring buffer 'RB_" ++ toString i ++ "' not found in setup configuration!"))

/-- run_daq.py lines 42-70, `buffer_control.setup_buffers`. -/
def setup_buffers (bd : List (String × RBSpec)) : Except PyErr (List RingBuf) :=
  setup_buffers_from 1 bd

/-- An endpoint handle returned by the buffer manager: a reader group, a
writer, or an observer of a named buffer, numbered per buffer. -/
inductive EPoint where
  | reader (buf : String) (grp : Nat)
  | writerEp (buf : String) (idx : Nat)
  | observerEp (buf : String) (idx : Nat)
deriving DecidableEq

/-- Per-buffer endpoint counters of a `bm.NewBuffer`. -/
structure BufEps where
  readerGroups : Nat
  writers : Nat
  observers : Nat
deriving DecidableEq

/-- The controller's `self.ringbuffers` dict, reduced to the endpoint
counters the setup phase mutates. -/
abbrev RBStates := List (String × BufEps)

def initRBStates (ns : List String) : RBStates :=
  ns.map (fun n => (n, ⟨0, 0, 0⟩))

/-- `self.ringbuffers[key].new_reader_group()`: `none` when the buffer name
is undefined (the dict lookup raises `KeyError`). -/
def new_reader_group : RBStates → String → Option (EPoint × RBStates)
  | [], _ => none
  | (n, st) :: t, b =>
    if n = b then
      some (.reader b st.readerGroups, (n, { st with readerGroups := st.readerGroups + 1 }) :: t)
    else (new_reader_group t b).map (fun r => (r.1, (n, st) :: r.2))

/-- `self.ringbuffers[key].new_writer()`. -/
def new_writer : RBStates → String → Option (EPoint × RBStates)
  | [], _ => none
  | (n, st) :: t, b =>
    if n = b then
      some (.writerEp b st.writers, (n, { st with writers := st.writers + 1 }) :: t)
    else (new_writer t b).map (fun r => (r.1, (n, st) :: r.2))

/-- `self.ringbuffers[key].new_observer()`. -/
def new_observer : RBStates → String → Option (EPoint × RBStates)
  | [], _ => none
  | (n, st) :: t, b =>
    if n = b then
      some (.observerEp b st.observers, (n, { st with observers := st.observers + 1 }) :: t)
    else (new_observer t b).map (fun r => (r.1, (n, st) :: r.2))

/-- One endpoint-allocation call made during setup, tagged with the worker
callable it was made for. -/
inductive Alloc where
  | readerGroup (fkt : String) (buf : String)
  | writerCall (fkt : String) (buf : String)
  | observerCall (fkt : String) (buf : String)
deriving DecidableEq

/-- run_daq.py lines 145-154: split the assigned ring buffers by role and
allocate an endpoint per recognized role.  There is no `else` branch in the
source, so a role other than read/write/observe is silently skipped. -/
def allocEndpoints (fkt : String) : List (String × String) → RBStates →
    Except PyErr (List EPoint × List EPoint × List EPoint × List Alloc × RBStates)
  | [], rbs => .ok ([], [], [], [], rbs)
  | (key, value) :: rest, rbs =>
    if value = "read" then
      match new_reader_group rbs key with
      | none => .error (.keyError key)
      | some (ep, rbs') =>
        match allocEndpoints fkt rest rbs' with
        | .error e => .error e
        | .ok (ss, ks, obs, evs, rbs'') =>
          .ok (ep :: ss, ks, obs, .readerGroup fkt key :: evs, rbs'')
    else if value = "write" then
      match new_writer rbs key with
      | none => .error (.keyError key)
      | some (ep, rbs') =>
        match allocEndpoints fkt rest rbs' with
        | .error e => .error e
        | .ok (ss, ks, obs, evs, rbs'') =>
          .ok (ss, ep :: ks, obs, .writerCall fkt key :: evs, rbs'')
    else if value = "observe" then
      match new_observer rbs key with
      | none => .error (.keyError key)
      | some (ep, rbs') =>
        match allocEndpoints fkt rest rbs' with
        | .error e => .error e
        | .ok (ss, ks, obs, evs, rbs'') =>
          .ok (ss, ks, ep :: obs, .observerCall fkt key :: evs, rbs'')
    else allocEndpoints fkt rest rbs

/-- The config files visible to `get_config`, path → loaded YAML value. -/
abbrev FS := List (String × YVal)

/-- run_daq.py lines 249-258: load a YAML config file. -/
def get_config (fs : FS) (p : String) : Except PyErr YVal :=
  match lookupStr fs p with
  | some v => .ok v
  | none => .error (.fileNotFound p)

/-- Outcome of run_daq.py lines 83-95: the resolved common-config path, the
value of the local `config_dict_common` (or `none` when it stays unbound),
the runtime override taken from the `general` section, and the file copies
made. -/
structure CommonRes where
  cfgPath : Option String
  commonVar : Option YVal
  runtimeOverride : Option YVal
  copies : List (String × String)

/-- run_daq.py lines 86-95: optional common configuration.  The lookup key
comes from the module-global `parallel_functions_dict` `g`, not from
`self.functions_dict`.  When no common config file is configured, the local
variable `config_dict_common` stays unbound. -/
def resolveCommonBlock (g : FunctionsDict) (fs : FS) (cwd out_dir : String) :
    Except PyErr CommonRes :=
  match g.fkt_main.config_file with
  | none => .ok ⟨none, none, none, []⟩
  | some cfg_common =>
    let dest := dirnameOf out_dir ++ "/" ++ basenameOf cfg_common
    match get_config fs cfg_common with
    | .error e => .error e
    | .ok cdc =>
      match pyIndex cdc "general" with
      | .error e => .error e
      | .ok general =>
        match pyContains general "runtime" with
        | .error e => .error e
        | .ok b =>
          if b then
            match pyIndex general "runtime" with
            | .error e => .error e
            | .ok rt =>
              .ok ⟨some cfg_common, some cdc, some rt, [(abspathIn cwd cfg_common, dest)]⟩
          else .ok ⟨some cfg_common, some cdc, none, [(abspathIn cwd cfg_common, dest)]⟩

/-- run_daq.py lines 114-135: per-worker configuration resolution.  The
`except (KeyError, TypeError)` around `config_dict_common[fkt_py_name]`
keeps the empty dict; an unbound `config_dict_common` (no common config
file was configured) raises `UnboundLocalError`, which is not caught. -/
def resolveWorkerConfig (w : WorkerDef) (commonVar : Option YVal) (fs : FS)
    (cwd out_dir : String) : Except PyErr (YVal × List (String × String)) :=
  match w.config_file with
  | some cfg =>
    let dest := dirnameOf out_dir ++ "/" ++ basenameOf cfg
    match get_config fs cfg with
    | .error e => .error e
    | .ok cd => .ok (cd, [(abspathIn cwd cfg, dest)])
  | none =>
    match commonVar with
    | none => .error (.nameError "config_dict_common")
    | some cdc =>
      match pyIndex cdc w.fkt_name with
      | .ok v => .ok (v, [])
      | .error (.keyError _) => .ok (.ydict [], [])
      | .error (.typeError _) => .ok (.ydict [], [])
      | .error e => .error e

/-- The modules importable at setup time: `Path(module_path).name` → names
defined in the module. -/
abbrev ModEnv := List (String × List String)

/-- run_daq.py lines 188-212, `buffer_control.import_function`: an
`ImportError` is caught (a message is printed) and `None` is returned; a
resolvable module without the callable raises an uncaught `KeyError` from
`vars(module)[function_name]`. -/
def import_function (env : ModEnv) (module_path function_name : String) :
    Except PyErr (Option (String × String)) :=
  match lookupStr env (pyName module_path) with
  | none => .ok none
  | some names =>
    if names.contains function_name then .ok (some (pyName module_path, function_name))
    else .error (.keyError function_name)

/-- One `multiprocessing.Process` as created at run_daq.py lines 164-167:
the target callable (or `None`), the argument tuple
`(source_list, sink_list, observe_list, config_dict)`, the keyword
arguments, and the process name. -/
structure Proc where
  target : Option (String × String)
  sources : Option (List EPoint)
  sinks : Option (List EPoint)
  observers : Option (List EPoint)
  config : YVal
  kwargs : List (String × String)
  name : String

/-- What setting up one worker definition produces: its processes, its
endpoint-allocation calls, and its config-file copies. -/
structure WorkerOut where
  procs : List Proc
  allocs : List Alloc
  copies : List (String × String)

/-- run_daq.py lines 97-167, the body of the per-worker loop of
`setup_workers`: resolve the config, inject `directory_prefix`, allocate
the endpoints, import the callable, and create `num_process` processes all
sharing the same argument tuple. -/
def setupOneWorker (w : WorkerDef) (commonVar : Option YVal) (fs : FS) (env : ModEnv)
    (cwd out_dir : String) (rbs : RBStates) : Except PyErr (WorkerOut × RBStates) :=
  let assigned := w.RB_assign.getD []
  match resolveWorkerConfig w commonVar fs cwd out_dir with
  | .error e => .error e
  | .ok (cfg0, cps) =>
    match pySetItem cfg0 "directory_prefix" (.ystr out_dir) with
    | .error e => .error e
    | .ok cfg =>
      match allocEndpoints w.fkt_name assigned rbs with
      | .error e => .error e
      | .ok (ss, ks, obs, evs, rbs') =>
        let src := if ss.isEmpty then none else some ss
        let snk := if ks.isEmpty then none else some ks
        let osv := if obs.isEmpty then none else some obs
        match import_function env w.file_name w.fkt_name with
        | .error e => .error e
        | .ok pf =>
          .ok (⟨List.replicate w.num_process
                  { target := pf, sources := src, sinks := snk, observers := osv,
                    config := cfg, kwargs := assigned, name := w.fkt_name },
                evs, cps⟩, rbs')

/-- run_daq.py lines 97-167: the worker loop, in declaration order,
appending each worker's processes to `self.process_list`. -/
def setupWorkersLoop (commonVar : Option YVal) (fs : FS) (env : ModEnv)
    (cwd out_dir : String) : List WorkerDef → RBStates →
    Except PyErr (List Proc × List Alloc × List (String × String) × RBStates)
  | [], rbs => .ok ([], [], [], rbs)
  | w :: rest, rbs =>
    match setupOneWorker w commonVar fs env cwd out_dir rbs with
    | .error e => .error e
    | .ok (o, rbs') =>
      match setupWorkersLoop commonVar fs env cwd out_dir rest rbs' with
      | .error e => .error e
      | .ok (ps, evs, cps, rbs'') =>
        .ok (o.procs ++ ps, o.allocs ++ evs, o.copies ++ cps, rbs'')

/-- The state `setup_workers` leaves behind: `self.process_list`,
`self.runtime`, and bookkeeping of the calls it made. -/
structure SetupResult where
  process_list : List Proc
  runtime : YVal
  cfgCommonPath : Option String
  runtimeOverride : Option YVal
  allocs : List Alloc
  copies : List (String × String)
  rb_states : RBStates

/-- run_daq.py lines 72-169, `buffer_control.setup_workers`.  `self`
supplies the worker definitions and the initial runtime (line 83); the
common configuration is read from the module-global
`parallel_functions_dict` `g` (lines 86-95). -/
def setup_workers (self : buffer_control) (g : FunctionsDict) (fs : FS) (env : ModEnv)
    (cwd : String) (rbNames : List String) : Except PyErr SetupResult :=
  let runtime0 := self.functions_dict.fkt_main.runtime.getD (.yint 0)
  match resolveCommonBlock g fs cwd self.out_dir with
  | .error e => .error e
  | .ok com =>
    match setupWorkersLoop com.commonVar fs env cwd self.out_dir
        self.functions_dict.workers (initRBStates rbNames) with
    | .error e => .error e
    | .ok (ps, evs, cps, rbs') =>
      .ok { process_list := ps, runtime := com.runtimeOverride.getD runtime0,
            cfgCommonPath := com.cfgPath, runtimeOverride := com.runtimeOverride,
            allocs := evs, copies := com.copies ++ cps, rb_states := rbs' }

/-- The common-config projection of a `setup_workers` outcome: which common
config file was resolved and which runtime override it supplied. -/
def commonResolution : Except PyErr SetupResult → Except PyErr (Option String × Option YVal)
  | .error e => .error e
  | .ok r => .ok (r.cfgCommonPath, r.runtimeOverride)

/-- run_daq.py lines 171-186, `buffer_control.start_workers`: the list is
reversed in place and the processes are started in that order. -/
def start_workers (process_list : List Proc) : List Proc :=
  process_list.reverse

/-- Observable controller actions, in the order they are performed. -/
inductive Event where
  | shutdownBuf (name : String)
  | joinProc (name : String)
  | pauseBuf (name : String)
  | mkdirEv (path : String) (mode : Nat)
  | copyEv (src dest : String)
  | startProc (name : String)
deriving DecidableEq

/-- run_daq.py lines 219-232, `buffer_control.shutdown`: `shutdown()` on
every ring buffer in the dict's (declaration) order, then `join()` on every
worker process. -/
def shutdown_trace (rbNames : List String) (pl : List Proc) : List Event :=
  rbNames.map Event.shutdownBuf ++ pl.map (fun p => Event.joinProc p.name)

/-- run_daq.py lines 234-238, `buffer_control.pause`: pause buffer RB_1. -/
def pause_trace : List Event :=
  [Event.pauseBuf "RB_1"]

/-- run_daq.py lines 366-384: after the batch-mode loop ends, `bc.pause()`
runs first, and `bc.shutdown()` afterwards. -/
def batch_post_trace (rbNames : List String) (pl : List Proc) : List Event :=
  Event.pauseBuf "RB_1" :: shutdown_trace rbNames pl

/-- run_daq.py lines 362-364: `p.exitcode == 0` for some process of the
snapshot (`exitcode` is `None` while the process runs). -/
def hasExitZero (snap : List (Option Int)) : Bool :=
  snap.any (fun c => c == some 0)

/-- run_daq.py lines 349-365: the batch-mode supervision loop, as a
function of the successive exit-code snapshots it samples; it stops at the
first sample on which some process has exit code 0, and returns that
sample's index. -/
def batch_loop : List (List (Option Int)) → Option Nat
  | [] => none
  | s :: rest => if hasExitZero s then some 0 else (batch_loop rest).map (fun n => n + 1)

/-- run_daq.py lines 288-297: directory creation (`mode=0o0770`) and the
copy of the setup file into the new directory. -/
def main_pre_trace (setup_filename : String) (t : TimeStamp) (cwd : String) : List Event :=
  let dp := targetDirOf setup_filename t
  [Event.mkdirEv dp 0o770,
   Event.copyEv (abspathIn cwd setup_filename) (dirnameOf dp ++ "/" ++ setup_filename)]

/-- run_daq.py `__main__` from the directory setup to the worker start:
directory creation and setup-file copy, buffer setup, worker setup, then
the reversed start.  Returns the events performed together with the error
that aborted the run, if any. -/
def main_flow (setup_filename : String) (t : TimeStamp) (bc : buffer_control)
    (g : FunctionsDict) (fs : FS) (env : ModEnv) (cwd : String) :
    List Event × Option PyErr :=
  let pre := main_pre_trace setup_filename t cwd
  match setup_buffers bc.buffers_dict with
  | .error e => (pre, some e)
  | .ok rbs =>
    match setup_workers bc g fs env cwd (rbs.map (fun r => r.name)) with
    | .error e => (pre, some e)
    | .ok r => (pre ++ (start_workers r.process_list).map (fun p => Event.startProc p.name), none)

/-- One histogram of `animHists`: bounds, bin count, frequency array and
entry counter (histogram_buffer.py lines 36-60).  Frequencies are rationals
standing for the numpy floats. -/
structure HState where
  hmin : ℚ
  hmax : ℚ
  nbins : Nat
  frqs : List ℚ
  entries : Nat

/-- Python `int(...)`: truncation toward zero. -/
def pyInt (q : ℚ) : Int :=
  if 0 ≤ q then Int.floor q else -Int.floor (-q)

/-- histogram_buffer.py line 135: the computed bin index
`int(nbins * (v - min) / (max - min))`. -/
def histBinIndex (h : HState) (v : ℚ) : Int :=
  pyInt ((h.nbins : ℚ) * (v - h.hmin) / (h.hmax - h.hmin))

/-- histogram_buffer.py lines 134-137: the guarded frequency update for one
value. -/
def addValue (h : HState) (v : ℚ) : HState :=
  let iv := histBinIndex h v
  if 0 ≤ iv ∧ iv < (h.nbins : Int) then
    { h with frqs := h.frqs.set iv.toNat (h.frqs.getD iv.toNat 0 + 1) }
  else h

/-- histogram_buffer.py lines 131-137 for one histogram: count all the
incoming values into `entries`, then accumulate each into its bin when the
index is in range. -/
def histCallOne (h : HState) (vs : List ℚ) : HState :=
  vs.foldl addValue { h with entries := h.entries + vs.length }

/-- histogram_buffer.py `animHists.__call__` (the frequency bookkeeping;
the matplotlib drawing is display-only): on `None`, nothing changes. -/
def animCall (hs : List HState) : Option (List (List ℚ)) → List HState
  | none => hs
  | some vals => List.zipWith histCallOne hs vals

/-- The buffer name of a `shutdownBuf` event. -/
def shutName : Event → Option String
  | .shutdownBuf b => some b
  | _ => none

/-- The endpoint-allocation call that one `RB_assign` entry triggers
(run_daq.py lines 145-154), `none` for an unrecognized role. -/
def roleAlloc (fkt : String) (p : String × String) : Option Alloc :=
  if p.2 = "read" then some (.readerGroup fkt p.1)
  else if p.2 = "write" then some (.writerCall fkt p.1)
  else if p.2 = "observe" then some (.observerCall fkt p.1)
  else none

/-! Concrete inputs used by the witnesses and counterexamples. -/

/-- A concrete process value. -/
def pA : Proc :=
  { target := none, sources := none, sinks := none, observers := none,
    config := .ydict [], kwargs := [], name := "fkt_a" }

/-- A second concrete process value. -/
def pB : Proc :=
  { target := none, sources := none, sinks := none, observers := none,
    config := .ydict [], kwargs := [], name := "fkt_b" }

/-- A worker without a per-worker config file. -/
def w5none : WorkerDef := ⟨"mod.py", "fkt", 1, some [], none⟩

/-- A setup whose `Fkt_main` has no common config file either. -/
def bc5none : buffer_control := ⟨[], ⟨⟨none, none⟩, [w5none]⟩, "target/x/"⟩

/-- A worker with a per-worker config file `w.yaml`. -/
def w5per : WorkerDef := ⟨"mod.py", "fkt", 1, some [], some "w.yaml"⟩

/-- A setup around `w5per`, still without a common config file. -/
def bc5per : buffer_control := ⟨[], ⟨⟨none, none⟩, [w5per]⟩, "target/x/"⟩

/-- The file system for the per-worker-config scenario. -/
def fs5 : FS := [("w.yaml", .ydict [("gain", .yint 3)])]

/-- The modules for the worker scenarios: `mod.py` defining `fkt`. -/
def env5 : ModEnv := [("mod.py", ["fkt"])]

/-- A setup whose `Fkt_main` has the common config file `c.yaml`. -/
def bc5com : buffer_control := ⟨[], ⟨⟨none, some "c.yaml"⟩, [w5none]⟩, "target/x/"⟩

/-- A common config file with a `general` section and no worker section. -/
def fs5c : FS := [("c.yaml", .ydict [("general", .ydict [])])]

/-- A worker whose only assignment names an undefined buffer under the
unrecognized role string `"reed"`. -/
def w6bad : WorkerDef := ⟨"mod.py", "fkt", 1, some [("RB_9", "reed")], some "w.yaml"⟩

/-- The setup around `w6bad`. -/
def bc6bad : buffer_control := ⟨[], ⟨⟨none, none⟩, [w6bad]⟩, "target/x/"⟩

/-- A worker whose module is not importable. -/
def w7mod : WorkerDef := ⟨"missing.py", "fkt", 1, some [], some "w.yaml"⟩

/-- The setup around `w7mod`. -/
def bc7mod : buffer_control := ⟨[], ⟨⟨none, none⟩, [w7mod]⟩, "target/x/"⟩

/-- A two-replica worker reading from `RB_1`. -/
def wRead : WorkerDef := ⟨"mod.py", "fkt", 2, some [("RB_1", "read")], some "w.yaml"⟩

/-- A file system holding an empty per-worker config file. -/
def fsW : FS := [("w.yaml", .ydict [])]

/-- The process that setting up `wRead` creates (twice). -/
def procRead : Proc :=
  { target := some ("mod.py", "fkt"), sources := some [.reader "RB_1" 0], sinks := none,
    observers := none, config := .ydict [("directory_prefix", .ystr "target/x/")],
    kwargs := [("RB_1", "read")], name := "fkt" }

/-- The outcome of setting up `wRead`. -/
def outRead : WorkerOut :=
  ⟨[procRead, procRead], [.readerGroup "fkt" "RB_1"], [("/cwd/w.yaml", "target/x/w.yaml")]⟩

/-- The buffer endpoint state after setting up `wRead`. -/
def rbsAfterRead : RBStates := [("RB_1", ⟨1, 0, 0⟩)]

/-- A one-buffer `RingBuffer` section with a valid scalar data type. -/
def rb1spec : List (String × RBSpec) := [("RB_1", ⟨4, 1, .dstr "float"⟩)]

/-- The ring buffers built from `rb1spec`. -/
def rb1built : List RingBuf := [⟨"RB_1", 4, 1, .scalar "float"⟩]

/-- A worker whose module resolves but whose callable name does not. -/
def w7fkt : WorkerDef := ⟨"mod.py", "fkt", 1, some [], some "w.yaml"⟩

/-! Helper lemmas. -/

theorem filterMap_shutName_shuts (ns : List String) :
    (ns.map Event.shutdownBuf).filterMap shutName = ns := by
  induction ns with
  | nil => rfl
  | cons n t ih => simp [shutName, ih]

theorem filterMap_shutName_joins (pl : List Proc) :
    (pl.map (fun p => Event.joinProc p.name)).filterMap shutName = [] := by
  induction pl with
  | nil => rfl
  | cons q t ih => simp [shutName, ih]

theorem addValue_entries (h : HState) (v : ℚ) : (addValue h v).entries = h.entries := by
  simp only [addValue]
  split <;> rfl

theorem foldl_addValue_entries (vs : List ℚ) (h : HState) :
    (vs.foldl addValue h).entries = h.entries := by
  induction vs generalizing h with
  | nil => rfl
  | cons v t ih => rw [List.foldl_cons, ih, addValue_entries]

theorem hasExitZero_iff (s : List (Option Int)) :
    hasExitZero s = true ↔ ∃ c ∈ s, c = some 0 := by
  simp [hasExitZero]

theorem batch_loop_some_spec (snaps : List (List (Option Int))) (k : Nat)
    (h : batch_loop snaps = some k) :
    (∃ s, snaps[k]? = some s ∧ hasExitZero s = true) ∧
      ∀ j s', j < k → snaps[j]? = some s' → hasExitZero s' = false := by
  induction snaps generalizing k with
  | nil => simp [batch_loop] at h
  | cons s rest ih =>
    rw [batch_loop] at h
    by_cases hz : hasExitZero s
    · rw [if_pos hz] at h
      injection h with h'
      subst h'
      exact ⟨⟨s, by simp, hz⟩, fun j s' hj _ => absurd hj (Nat.not_lt_zero j)⟩
    · rw [if_neg hz] at h
      cases hbl : batch_loop rest with
      | none => rw [hbl] at h; simp at h
      | some m =>
        rw [hbl, Option.map_some'] at h
        injection h with h'
        subst h'
        obtain ⟨⟨s0, hs0, hz0⟩, hprev⟩ := ih m hbl
        refine ⟨⟨s0, by simpa using hs0, hz0⟩, ?_⟩
        intro j s' hj hjs
        cases j with
        | zero =>
          have hss : s' = s := by simpa using hjs.symm
          subst hss
          simpa using hz
        | succ j' =>
          exact hprev j' s' (by omega) (by simpa using hjs)

theorem batch_loop_zero_stops (ss : List (List (Option Int))) (i : Nat)
    (s' : List (Option Int)) (h1 : ss[i]? = some s')
    (h2 : (some 0 : Option Int) ∈ s') : batch_loop ss ≠ none := by
  induction ss generalizing i with
  | nil => simp at h1
  | cons s rest ih =>
    rw [batch_loop]
    by_cases hz : hasExitZero s
    · rw [if_pos hz]; simp
    · rw [if_neg hz]
      cases i with
      | zero =>
        have hss : s' = s := by simpa using h1.symm
        subst hss
        exact absurd ((hasExitZero_iff s').mpr ⟨some 0, h2, rfl⟩) hz
      | succ i' =>
        have := ih i' (by simpa using h1)
        simpa using this

theorem findSub_some_first (sub l : List Char) (n : Nat) (h : findSub sub l = some n) :
    sub.isPrefixOf (l.drop n) = true ∧ ∀ m, m < n → sub.isPrefixOf (l.drop m) = false := by
  induction l generalizing n with
  | nil =>
    rw [findSub] at h
    split at h
    · next hp =>
      injection h with h'
      subst h'
      exact ⟨by simpa using hp, fun m hm => absurd hm (Nat.not_lt_zero m)⟩
    · simp at h
  | cons c t ih =>
    rw [findSub] at h
    by_cases hp : sub.isPrefixOf (c :: t)
    · rw [if_pos hp] at h
      injection h with h'
      subst h'
      exact ⟨by simpa using hp, fun m hm => absurd hm (Nat.not_lt_zero m)⟩
    · rw [if_neg hp] at h
      cases hf : findSub sub t with
      | none => rw [hf] at h; simp at h
      | some n' =>
        rw [hf, Option.map_some'] at h
        injection h with h'
        subst h'
        obtain ⟨h1, h2⟩ := ih n' hf
        refine ⟨by simpa using h1, ?_⟩
        intro m hm
        cases m with
        | zero => rw [List.drop_zero]; exact Bool.eq_false_iff.mpr hp
        | succ m' => simpa using h2 m' (by omega)

theorem findSub_none_all (sub l : List Char) (h : findSub sub l = none) :
    ∀ m, sub.isPrefixOf (l.drop m) = false := by
  induction l with
  | nil =>
    intro m
    rw [findSub] at h
    split at h
    · simp at h
    · next hp =>
      rw [List.drop_nil]
      exact Bool.eq_false_iff.mpr hp
  | cons c t ih =>
    intro m
    rw [findSub] at h
    by_cases hp : sub.isPrefixOf (c :: t)
    · rw [if_pos hp] at h; simp at h
    · rw [if_neg hp] at h
      have hf : findSub sub t = none := by
        cases hx : findSub sub t with
        | none => rfl
        | some n' => rw [hx] at h; simp at h
      cases m with
      | zero => rw [List.drop_zero]; exact Bool.eq_false_iff.mpr hp
      | succ m' => simpa using ih hf m'

theorem targetDirOf_eq_take (p : String) (t : TimeStamp) (n : Nat)
    (h : findSub ("setup".toList) (pyStem p).toList = some n) :
    targetDirOf p t = "target/" ++ ((pyStem p).toList.take n).asString ++ timeCode t ++ "/" := by
  simp only [targetDirOf, strFind, h, pySliceTo]
  rw [if_pos (by omega)]
  simp

theorem targetDirOf_eq_dropLast (p : String) (t : TimeStamp)
    (h : findSub ("setup".toList) (pyStem p).toList = none) :
    targetDirOf p t =
      "target/" ++ ((pyStem p).toList.dropLast).asString ++ timeCode t ++ "/" := by
  simp only [targetDirOf, strFind, h, pySliceTo]
  rw [if_neg (by omega)]
  rw [List.dropLast_eq_take]
  have harith : (((pyStem p).toList.length : Int) + -1).toNat = (pyStem p).toList.length - 1 := by
    omega
  rw [harith]

theorem main_pre_trace_length (sf : String) (t : TimeStamp) (cwd : String) :
    (main_pre_trace sf t cwd).length = 2 := rfl

theorem pre_trace_no_start (sf : String) (t : TimeStamp) (cwd : String) (j : Nat) (nm : String) :
    (main_pre_trace sf t cwd)[j]? ≠ some (Event.startProc nm) := by
  match j with
  | 0 => simp [main_pre_trace]
  | 1 => simp [main_pre_trace]
  | (j' + 2) =>
    rw [List.getElem?_eq_none (by rw [main_pre_trace_length]; omega)]
    simp

theorem main_flow_error_trace (sf : String) (t : TimeStamp) (bc : buffer_control)
    (g : FunctionsDict) (fs : FS) (env : ModEnv) (cwd : String) (e : PyErr)
    (h : (main_flow sf t bc g fs env cwd).2 = some e) :
    (main_flow sf t bc g fs env cwd).1 = main_pre_trace sf t cwd := by
  simp only [main_flow] at h ⊢
  cases hb : setup_buffers bc.buffers_dict with
  | error e' => simp only [hb]
  | ok rbs =>
    simp only [hb] at h ⊢
    cases hw : setup_workers bc g fs env cwd (rbs.map (fun r => r.name)) with
    | error e' => simp only [hw]
    | ok r =>
      simp only [hw] at h
      simp at h

theorem main_flow_error_no_start (sf : String) (t : TimeStamp) (bc : buffer_control)
    (g : FunctionsDict) (fs : FS) (env : ModEnv) (cwd : String) (e : PyErr) (nm : String)
    (h : (main_flow sf t bc g fs env cwd).2 = some e) :
    Event.startProc nm ∉ (main_flow sf t bc g fs env cwd).1 := by
  rw [main_flow_error_trace sf t bc g fs env cwd e h]
  intro hmem
  simp [main_pre_trace] at hmem

theorem main_flow_copy_lt_start (sf : String) (t : TimeStamp) (bc : buffer_control)
    (g : FunctionsDict) (fs : FS) (env : ModEnv) (cwd : String) (i j : Nat)
    (src dest nm : String)
    (h1 : (main_flow sf t bc g fs env cwd).1[i]? = some (Event.copyEv src dest))
    (h2 : (main_flow sf t bc g fs env cwd).1[j]? = some (Event.startProc nm)) :
    i < j := by
  simp only [main_flow] at h1 h2
  cases hb : setup_buffers bc.buffers_dict with
  | error e =>
    simp only [hb] at h2
    exact absurd h2 (pre_trace_no_start sf t cwd j nm)
  | ok rbs =>
    simp only [hb] at h1 h2
    cases hw : setup_workers bc g fs env cwd (rbs.map (fun r => r.name)) with
    | error e =>
      simp only [hw] at h2
      exact absurd h2 (pre_trace_no_start sf t cwd j nm)
    | ok r =>
      simp only [hw] at h1 h2
      have hj2 : 2 ≤ j := by
        by_contra hlt
        push_neg at hlt
        rw [List.getElem?_append_left (by rw [main_pre_trace_length]; omega)] at h2
        exact absurd h2 (pre_trace_no_start sf t cwd j nm)
      have hi2 : i < 2 := by
        by_contra hge
        push_neg at hge
        rw [List.getElem?_append_right (by rw [main_pre_trace_length]; omega)] at h1
        rw [List.getElem?_map] at h1
        cases hx : (start_workers r.process_list)[i - (main_pre_trace sf t cwd).length]? with
        | none => rw [hx] at h1; simp at h1
        | some q => rw [hx] at h1; simp at h1
      omega

theorem lookupStr_isSome_iff {α : Type} (l : List (String × α)) (b : String) :
    (lookupStr l b).isSome = true ↔ b ∈ l.map Prod.fst := by
  induction l with
  | nil => simp [lookupStr]
  | cons hd tl ih =>
    obtain ⟨k, v⟩ := hd
    rw [lookupStr]
    by_cases hk : k = b
    · subst hk
      simp
    · simp only [if_neg hk, List.map_cons, List.mem_cons]
      rw [ih]
      constructor
      · exact fun hm => Or.inr hm
      · rintro (heq | hm)
        · exact absurd heq.symm hk
        · exact hm

theorem new_reader_group_keys (rbs : RBStates) (b : String) (ep : EPoint) (rbs' : RBStates)
    (h : new_reader_group rbs b = some (ep, rbs')) :
    (lookupStr rbs b).isSome = true ∧ rbs'.map Prod.fst = rbs.map Prod.fst := by
  induction rbs generalizing ep rbs' with
  | nil => simp [new_reader_group] at h
  | cons hd tl ih =>
    obtain ⟨nm, st⟩ := hd
    rw [new_reader_group] at h
    by_cases hn : nm = b
    · rw [if_pos hn] at h
      injection h with h'
      have h2 : ((nm, { st with readerGroups := st.readerGroups + 1 }) :: tl : RBStates) = rbs' :=
        congrArg Prod.snd h'
      rw [lookupStr, if_pos hn]
      refine ⟨rfl, ?_⟩
      rw [← h2]
      simp
    · rw [if_neg hn] at h
      cases hx : new_reader_group tl b with
      | none => rw [hx] at h; simp at h
      | some pr =>
        obtain ⟨ep2, tl2⟩ := pr
        rw [hx, Option.map_some'] at h
        injection h with h'
        have htl : (nm, st) :: tl2 = rbs' := congrArg Prod.snd h'
        obtain ⟨h1, h2⟩ := ih ep2 tl2 hx
        rw [lookupStr, if_neg hn]
        refine ⟨h1, ?_⟩
        rw [← htl]
        simpa using h2

theorem new_writer_keys (rbs : RBStates) (b : String) (ep : EPoint) (rbs' : RBStates)
    (h : new_writer rbs b = some (ep, rbs')) :
    (lookupStr rbs b).isSome = true ∧ rbs'.map Prod.fst = rbs.map Prod.fst := by
  induction rbs generalizing ep rbs' with
  | nil => simp [new_writer] at h
  | cons hd tl ih =>
    obtain ⟨nm, st⟩ := hd
    rw [new_writer] at h
    by_cases hn : nm = b
    · rw [if_pos hn] at h
      injection h with h'
      have h2 : ((nm, { st with writers := st.writers + 1 }) :: tl : RBStates) = rbs' :=
        congrArg Prod.snd h'
      rw [lookupStr, if_pos hn]
      refine ⟨rfl, ?_⟩
      rw [← h2]
      simp
    · rw [if_neg hn] at h
      cases hx : new_writer tl b with
      | none => rw [hx] at h; simp at h
      | some pr =>
        obtain ⟨ep2, tl2⟩ := pr
        rw [hx, Option.map_some'] at h
        injection h with h'
        have htl : (nm, st) :: tl2 = rbs' := congrArg Prod.snd h'
        obtain ⟨h1, h2⟩ := ih ep2 tl2 hx
        rw [lookupStr, if_neg hn]
        refine ⟨h1, ?_⟩
        rw [← htl]
        simpa using h2

theorem new_observer_keys (rbs : RBStates) (b : String) (ep : EPoint) (rbs' : RBStates)
    (h : new_observer rbs b = some (ep, rbs')) :
    (lookupStr rbs b).isSome = true ∧ rbs'.map Prod.fst = rbs.map Prod.fst := by
  induction rbs generalizing ep rbs' with
  | nil => simp [new_observer] at h
  | cons hd tl ih =>
    obtain ⟨nm, st⟩ := hd
    rw [new_observer] at h
    by_cases hn : nm = b
    · rw [if_pos hn] at h
      injection h with h'
      have h2 : ((nm, { st with observers := st.observers + 1 }) :: tl : RBStates) = rbs' :=
        congrArg Prod.snd h'
      rw [lookupStr, if_pos hn]
      refine ⟨rfl, ?_⟩
      rw [← h2]
      simp
    · rw [if_neg hn] at h
      cases hx : new_observer tl b with
      | none => rw [hx] at h; simp at h
      | some pr =>
        obtain ⟨ep2, tl2⟩ := pr
        rw [hx, Option.map_some'] at h
        injection h with h'
        have htl : (nm, st) :: tl2 = rbs' := congrArg Prod.snd h'
        obtain ⟨h1, h2⟩ := ih ep2 tl2 hx
        rw [lookupStr, if_neg hn]
        refine ⟨h1, ?_⟩
        rw [← htl]
        simpa using h2

theorem allocEndpoints_ok_spec (fkt : String) (l : List (String × String)) (rbs : RBStates)
    (ss ks obs : List EPoint) (evs : List Alloc) (rbs' : RBStates)
    (h : allocEndpoints fkt l rbs = .ok (ss, ks, obs, evs, rbs')) :
    evs = l.filterMap (roleAlloc fkt) ∧
    rbs'.map Prod.fst = rbs.map Prod.fst ∧
    (∀ b role, (b, role) ∈ l → (role = "read" ∨ role = "write" ∨ role = "observe") →
      (lookupStr rbs b).isSome = true) ∧
    (ss.isEmpty = true ↔ ∀ x ∈ l, x.2 ≠ "read") := by
  induction l generalizing rbs ss ks obs evs rbs' with
  | nil =>
    rw [allocEndpoints] at h
    simp only [Except.ok.injEq, Prod.mk.injEq] at h
    obtain ⟨h1, h2, h3, h4, h5⟩ := h
    subst h1; subst h2; subst h3; subst h4; subst h5
    simp
  | cons hd tl ih =>
    obtain ⟨key, value⟩ := hd
    rw [allocEndpoints] at h
    by_cases hv1 : value = "read"
    · rw [if_pos hv1] at h
      cases hx : new_reader_group rbs key with
      | none => rw [hx] at h; simp at h
      | some pr =>
        obtain ⟨ep, rbs1⟩ := pr
        simp only [hx] at h
        cases hy : allocEndpoints fkt tl rbs1 with
        | error e => rw [hy] at h; simp at h
        | ok tup =>
          obtain ⟨ss2, ks2, obs2, evs2, rbs2⟩ := tup
          simp only [hy] at h
          simp only [Except.ok.injEq, Prod.mk.injEq] at h
          obtain ⟨h1, h2, h3, h4, h5⟩ := h
          subst h1; subst h2; subst h3; subst h4; subst h5
          obtain ⟨he, hkeys, hlook, hempty⟩ := ih rbs1 ss2 ks2 obs2 evs2 rbs2 hy
          obtain ⟨hlk, hkeq⟩ := new_reader_group_keys rbs key ep rbs1 hx
          refine ⟨?_, ?_, ?_, ?_⟩
          · rw [List.filterMap_cons]
            have hra : roleAlloc fkt (key, value) = some (Alloc.readerGroup fkt key) := by
              simp [roleAlloc, hv1]
            rw [hra, he]
          · rw [hkeys, hkeq]
          · intro b role hmem hrole
            rcases List.mem_cons.mp hmem with heq | hmem'
            · have hb : b = key := congrArg Prod.fst heq
              rw [hb]
              exact hlk
            · have := hlook b role hmem' hrole
              rw [lookupStr_isSome_iff] at this ⊢
              rw [← hkeq]
              exact this
          · constructor
            · intro habs
              simp at habs
            · intro hall
              exact absurd hv1 (by simpa using hall (key, value) (List.mem_cons_self ..))
    · rw [if_neg hv1] at h
      by_cases hv2 : value = "write"
      · rw [if_pos hv2] at h
        cases hx : new_writer rbs key with
        | none => rw [hx] at h; simp at h
        | some pr =>
          obtain ⟨ep, rbs1⟩ := pr
          simp only [hx] at h
          cases hy : allocEndpoints fkt tl rbs1 with
          | error e => rw [hy] at h; simp at h
          | ok tup =>
            obtain ⟨ss2, ks2, obs2, evs2, rbs2⟩ := tup
            simp only [hy] at h
            simp only [Except.ok.injEq, Prod.mk.injEq] at h
            obtain ⟨h1, h2, h3, h4, h5⟩ := h
            subst h1; subst h2; subst h3; subst h4; subst h5
            obtain ⟨he, hkeys, hlook, hempty⟩ := ih rbs1 ss2 ks2 obs2 evs2 rbs2 hy
            obtain ⟨hlk, hkeq⟩ := new_writer_keys rbs key ep rbs1 hx
            refine ⟨?_, ?_, ?_, ?_⟩
            · rw [List.filterMap_cons]
              have hra : roleAlloc fkt (key, value) = some (Alloc.writerCall fkt key) := by
                simp [roleAlloc, hv1, hv2]
              rw [hra, he]
            · rw [hkeys, hkeq]
            · intro b role hmem hrole
              rcases List.mem_cons.mp hmem with heq | hmem'
              · have hb : b = key := congrArg Prod.fst heq
                rw [hb]
                exact hlk
              · have := hlook b role hmem' hrole
                rw [lookupStr_isSome_iff] at this ⊢
                rw [← hkeq]
                exact this
            · rw [hempty]
              constructor
              · intro hall x hx2
                rcases List.mem_cons.mp hx2 with heq | hm
                · rw [heq]
                  exact hv1
                · exact hall x hm
              · intro hall x hx2
                exact hall x (List.mem_cons_of_mem _ hx2)
      · rw [if_neg hv2] at h
        by_cases hv3 : value = "observe"
        · rw [if_pos hv3] at h
          cases hx : new_observer rbs key with
          | none => rw [hx] at h; simp at h
          | some pr =>
            obtain ⟨ep, rbs1⟩ := pr
            simp only [hx] at h
            cases hy : allocEndpoints fkt tl rbs1 with
            | error e => rw [hy] at h; simp at h
            | ok tup =>
              obtain ⟨ss2, ks2, obs2, evs2, rbs2⟩ := tup
              simp only [hy] at h
              simp only [Except.ok.injEq, Prod.mk.injEq] at h
              obtain ⟨h1, h2, h3, h4, h5⟩ := h
              subst h1; subst h2; subst h3; subst h4; subst h5
              obtain ⟨he, hkeys, hlook, hempty⟩ := ih rbs1 ss2 ks2 obs2 evs2 rbs2 hy
              obtain ⟨hlk, hkeq⟩ := new_observer_keys rbs key ep rbs1 hx
              refine ⟨?_, ?_, ?_, ?_⟩
              · rw [List.filterMap_cons]
                have hra : roleAlloc fkt (key, value) = some (Alloc.observerCall fkt key) := by
                  simp [roleAlloc, hv1, hv2, hv3]
                rw [hra, he]
              · rw [hkeys, hkeq]
              · intro b role hmem hrole
                rcases List.mem_cons.mp hmem with heq | hmem'
                · have hb : b = key := congrArg Prod.fst heq
                  rw [hb]
                  exact hlk
                · have := hlook b role hmem' hrole
                  rw [lookupStr_isSome_iff] at this ⊢
                  rw [← hkeq]
                  exact this
              · rw [hempty]
                constructor
                · intro hall x hx2
                  rcases List.mem_cons.mp hx2 with heq | hm
                  · rw [heq]
                    exact hv1
                  · exact hall x hm
                · intro hall x hx2
                  exact hall x (List.mem_cons_of_mem _ hx2)
        · rw [if_neg hv3] at h
          obtain ⟨he, hkeys, hlook, hempty⟩ := ih rbs ss ks obs evs rbs' h
          refine ⟨?_, hkeys, ?_, ?_⟩
          · rw [List.filterMap_cons]
            have hra : roleAlloc fkt (key, value) = none := by
              simp [roleAlloc, hv1, hv2, hv3]
            rw [hra, he]
          · intro b role hmem hrole
            rcases List.mem_cons.mp hmem with heq | hmem'
            · have hr : role = value := congrArg Prod.snd heq
              subst hr
              rcases hrole with h' | h' | h' <;> simp [h'] at hv1 hv2 hv3
            · exact hlook b role hmem' hrole
          · rw [hempty]
            constructor
            · intro hall x hx2
              rcases List.mem_cons.mp hx2 with heq | hm
              · rw [heq]
                exact hv1
              · exact hall x hm
            · intro hall x hx2
              exact hall x (List.mem_cons_of_mem _ hx2)

theorem roleAlloc_count (fkt b : String) (l : List (String × String))
    (hnd : (l.map Prod.fst).Nodup) :
    (l.filterMap (roleAlloc fkt)).count (Alloc.readerGroup fkt b) =
      if (b, "read") ∈ l then 1 else 0 := by
  induction l with
  | nil => simp
  | cons hd tl ih =>
    obtain ⟨k, v⟩ := hd
    have hnd2 : (tl.map Prod.fst).Nodup := (List.nodup_cons.mp (by simpa using hnd)).2
    have hknotin : k ∉ tl.map Prod.fst := (List.nodup_cons.mp (by simpa using hnd)).1
    by_cases hv : v = "read"
    · subst hv
      by_cases hk : k = b
      · subst hk
        have htl0 : (tl.filterMap (roleAlloc fkt)).count (Alloc.readerGroup fkt k) = 0 := by
          rw [ih hnd2, if_neg]
          intro hmem
          exact hknotin (List.mem_map.mpr ⟨(k, "read"), hmem, rfl⟩)
        have hra : roleAlloc fkt (k, "read") = some (Alloc.readerGroup fkt k) := by
          simp [roleAlloc]
        simp only [List.filterMap_cons, hra]
        rw [List.count_cons, htl0, if_pos (List.mem_cons_self ..)]
        simp
      · have hra : roleAlloc fkt (k, "read") = some (Alloc.readerGroup fkt k) := by
          simp [roleAlloc]
        have hmemiff : ((b, "read") ∈ (k, "read") :: tl) ↔ ((b, "read") ∈ tl) := by
          constructor
          · intro hm
            rcases List.mem_cons.mp hm with heq | hm'
            · injection heq with hb hrest
              exact absurd hb.symm hk
            · exact hm'
          · exact fun hm => List.mem_cons_of_mem _ hm
        simp only [List.filterMap_cons, hra]
        rw [List.count_cons, ih hnd2]
        have hne : (Alloc.readerGroup fkt k == Alloc.readerGroup fkt b) = false := by
          simp [hk]
        rw [hne]
        by_cases hmem : (b, "read") ∈ tl
        · rw [if_pos hmem, if_pos (hmemiff.mpr hmem)]
          simp
        · rw [if_neg hmem, if_neg (fun hc => hmem (hmemiff.mp hc))]
          simp
    · have hmemiff : ((b, "read") ∈ (k, v) :: tl) ↔ ((b, "read") ∈ tl) := by
        constructor
        · intro hm
          rcases List.mem_cons.mp hm with heq | hm'
          · injection heq with hb hveq
            exact absurd hveq.symm hv
          · exact hm'
        · exact fun hm => List.mem_cons_of_mem _ hm
      by_cases hv2 : v = "write"
      · have hra : roleAlloc fkt (k, v) = some (Alloc.writerCall fkt k) := by
          simp [roleAlloc, hv, hv2]
        simp only [List.filterMap_cons, hra]
        rw [List.count_cons, ih hnd2]
        have hne : (Alloc.writerCall fkt k == Alloc.readerGroup fkt b) = false := by
          simp
        rw [hne]
        by_cases hmem : (b, "read") ∈ tl
        · rw [if_pos hmem, if_pos (hmemiff.mpr hmem)]
          simp
        · rw [if_neg hmem, if_neg (fun hc => hmem (hmemiff.mp hc))]
          simp
      · by_cases hv3 : v = "observe"
        · have hra : roleAlloc fkt (k, v) = some (Alloc.observerCall fkt k) := by
            simp [roleAlloc, hv, hv2, hv3]
          simp only [List.filterMap_cons, hra]
          rw [List.count_cons, ih hnd2]
          have hne : (Alloc.observerCall fkt k == Alloc.readerGroup fkt b) = false := by
            simp
          rw [hne]
          by_cases hmem : (b, "read") ∈ tl
          · rw [if_pos hmem, if_pos (hmemiff.mpr hmem)]
            simp
          · rw [if_neg hmem, if_neg (fun hc => hmem (hmemiff.mp hc))]
            simp
        · have hra : roleAlloc fkt (k, v) = none := by
            simp [roleAlloc, hv, hv2, hv3]
          simp only [List.filterMap_cons, hra]
          rw [ih hnd2]
          by_cases hmem : (b, "read") ∈ tl
          · rw [if_pos hmem, if_pos (hmemiff.mpr hmem)]
          · rw [if_neg hmem, if_neg (fun hc => hmem (hmemiff.mp hc))]

theorem setup_buffers_from_ok_dtypes (i : Nat) (bd : List (String × RBSpec))
    (rbs : List RingBuf) (h : setup_buffers_from i bd = .ok rbs) :
    ∀ e ∈ bd, ∃ dt, mkDtype e.2.data_type = .ok dt := by
  induction bd generalizing i rbs with
  | nil => intro e he; simp at he
  | cons hd tl ih =>
    obtain ⟨name, spec⟩ := hd
    rw [setup_buffers_from] at h
    by_cases hn : name = "RB_" ++ toString i
    · rw [if_pos hn] at h
      cases hd2 : mkDtype spec.data_type with
      | error e2 => rw [hd2] at h; simp at h
      | ok dt =>
        simp only [hd2] at h
        cases hr : setup_buffers_from (i + 1) tl with
        | error e2 => rw [hr] at h; simp at h
        | ok rbs2 =>
          intro e he
          rcases List.mem_cons.mp he with heq | hmem
          · subst heq
            exact ⟨dt, hd2⟩
          · exact ih (i + 1) rbs2 hr e hmem
    · rw [if_neg hn] at h
      simp at h

theorem setupOneWorker_ok_parts (w : WorkerDef) (commonVar : Option YVal) (fs : FS)
    (env : ModEnv) (cwd od : String) (rbs rbs' : RBStates) (out : WorkerOut)
    (h : setupOneWorker w commonVar fs env cwd od rbs = .ok (out, rbs')) :
    ∃ cfg0 cps cfg ss ks obs evs pf,
      resolveWorkerConfig w commonVar fs cwd od = .ok (cfg0, cps) ∧
      pySetItem cfg0 "directory_prefix" (.ystr od) = .ok cfg ∧
      allocEndpoints w.fkt_name (w.RB_assign.getD []) rbs = .ok (ss, ks, obs, evs, rbs') ∧
      import_function env w.file_name w.fkt_name = .ok pf ∧
      out = ⟨List.replicate w.num_process
              { target := pf,
                sources := if ss.isEmpty then none else some ss,
                sinks := if ks.isEmpty then none else some ks,
                observers := if obs.isEmpty then none else some obs,
                config := cfg, kwargs := w.RB_assign.getD [], name := w.fkt_name },
              evs, cps⟩ := by
  simp only [setupOneWorker] at h
  cases hc : resolveWorkerConfig w commonVar fs cwd od with
  | error e => rw [hc] at h; simp at h
  | ok pr =>
    obtain ⟨cfg0, cps⟩ := pr
    simp only [hc] at h
    cases hs : pySetItem cfg0 "directory_prefix" (.ystr od) with
    | error e => rw [hs] at h; simp at h
    | ok cfg =>
      simp only [hs] at h
      cases ha : allocEndpoints w.fkt_name (w.RB_assign.getD []) rbs with
      | error e => rw [ha] at h; simp at h
      | ok tup =>
        obtain ⟨ss, ks, obs, evs, rbs2⟩ := tup
        simp only [ha] at h
        cases hi : import_function env w.file_name w.fkt_name with
        | error e => rw [hi] at h; simp at h
        | ok pf =>
          simp only [hi] at h
          simp only [Except.ok.injEq, Prod.mk.injEq] at h
          obtain ⟨h1, h2⟩ := h
          subst h2
          exact ⟨cfg0, cps, cfg, ss, ks, obs, evs, pf, rfl, hs, rfl, rfl, h1.symm⟩

/-! The claim theorems. -/

/-- C1: `start_workers` starts the worker processes in exactly the reverse
of the order in which `setup_workers` appended them to `process_list`: the
started sequence has the same length, and its `i`-th process is the
`(length - 1 - i)`-th appended one, so the last-declared worker's processes
start first and the first-declared (producer) ones start last. -/
theorem c1_start_reverse (pl : List Proc) (i : Nat) (h : i < pl.length) :
    (start_workers pl).length = pl.length ∧
    (start_workers pl)[i]? = pl[pl.length - 1 - i]? := by
  refine ⟨by simp [start_workers], ?_⟩
  simpa [start_workers] using List.getElem?_reverse h

theorem c1_start_reverse_witness :
    0 < ([pA, pB] : List Proc).length ∧
    ((start_workers [pA, pB]).length = ([pA, pB] : List Proc).length ∧
      (start_workers [pA, pB])[0]? =
        ([pA, pB] : List Proc)[([pA, pB] : List Proc).length - 1 - 0]?) :=
  ⟨by simp, c1_start_reverse [pA, pB] 0 (by simp)⟩

/-- C2: in the trace of `buffer_control.shutdown`, every `shutdown()` call
on a ring buffer precedes every worker-process `join()`, and the buffers
are shut down exactly in declaration order. -/
theorem c2_shutdown_before_join (ns : List String) (pl : List Proc) (i j : Nat) (b p : String)
    (h1 : (shutdown_trace ns pl)[i]? = some (Event.shutdownBuf b))
    (h2 : (shutdown_trace ns pl)[j]? = some (Event.joinProc p)) :
    i < j ∧ (shutdown_trace ns pl).filterMap shutName = ns := by
  have hi : i < ns.length := by
    by_contra hge
    push_neg at hge
    rw [shutdown_trace, List.getElem?_append_right (by simpa using hge)] at h1
    rw [List.getElem?_map] at h1
    cases hx : pl[i - (ns.map Event.shutdownBuf).length]? with
    | none => rw [hx] at h1; simp at h1
    | some q => rw [hx] at h1; simp at h1
  have hj : ns.length ≤ j := by
    by_contra hlt
    push_neg at hlt
    rw [shutdown_trace, List.getElem?_append_left (by simpa using hlt)] at h2
    rw [List.getElem?_map] at h2
    cases hx : ns[j]? with
    | none => rw [hx] at h2; simp at h2
    | some q => rw [hx] at h2; simp at h2
  refine ⟨by omega, ?_⟩
  rw [shutdown_trace, List.filterMap_append, filterMap_shutName_shuts, filterMap_shutName_joins,
    List.append_nil]

theorem c2_shutdown_before_join_witness :
    (shutdown_trace ["RB_1"] [pA])[0]? = some (Event.shutdownBuf "RB_1") ∧
    (shutdown_trace ["RB_1"] [pA])[1]? = some (Event.joinProc "fkt_a") ∧
    (0 < 1 ∧ (shutdown_trace ["RB_1"] [pA]).filterMap shutName = ["RB_1"]) :=
  ⟨by decide, by decide,
    c2_shutdown_before_join ["RB_1"] [pA] 0 1 "RB_1" "fkt_a" (by decide) (by decide)⟩

/-- C9: for two `buffer_control` instances that differ only in the
`Fkt_main` entry of the `functions_dict` passed to the constructor (its
`runtime` and `config_file` values), run under the same module-global
`parallel_functions_dict` `g`, `setup_workers` resolves the same common
configuration file and the same runtime override: that resolution reads
the module-global, not the constructor argument. -/
theorem c9_common_config_from_global (bd : List (String × RBSpec)) (fm1 fm2 : FktMain)
    (ws : List WorkerDef) (g : FunctionsDict) (fs : FS) (env : ModEnv) (cwd od : String)
    (ns : List String) :
    commonResolution (setup_workers ⟨bd, ⟨fm1, ws⟩, od⟩ g fs env cwd ns) =
      commonResolution (setup_workers ⟨bd, ⟨fm2, ws⟩, od⟩ g fs env cwd ns) := by
  have key : ∀ fm : FktMain,
      commonResolution (setup_workers ⟨bd, ⟨fm, ws⟩, od⟩ g fs env cwd ns) =
        (match resolveCommonBlock g fs cwd od with
          | .error e => .error e
          | .ok com =>
            match setupWorkersLoop com.commonVar fs env cwd od ws (initRBStates ns) with
            | .error e => .error e
            | .ok _ => .ok (com.cfgPath, com.runtimeOverride)) := by
    intro fm
    show commonResolution
        (match resolveCommonBlock g fs cwd od with
          | .error e => .error e
          | .ok com =>
            match setupWorkersLoop com.commonVar fs env cwd od ws (initRBStates ns) with
            | .error e => .error e
            | .ok (ps, evs, cps, rbs') =>
              .ok { process_list := ps,
                    runtime := com.runtimeOverride.getD (fm.runtime.getD (.yint 0)),
                    cfgCommonPath := com.cfgPath, runtimeOverride := com.runtimeOverride,
                    allocs := evs, copies := com.copies ++ cps, rb_states := rbs' }) = _
    cases hres : resolveCommonBlock g fs cwd od with
    | error e => simp only [hres, commonResolution]
    | ok com =>
      cases hloop : setupWorkersLoop com.commonVar fs env cwd od ws (initRBStates ns) with
      | error e => simp only [hres, hloop, commonResolution]
      | ok r =>
        obtain ⟨ps, evs, cps, rbs'⟩ := r
        simp only [hres, hloop, commonResolution]
  rw [key fm1, key fm2]

/-- C10: in `animHists.__call__`, the computed bin index updates a
frequency bin only when it lies in `[0, nbins)` — in that case it is a
valid index of the frequency array — the frequency array keeps its length,
every incoming value is counted into `entries`, and a value whose index
falls outside the range increments `entries` without touching any bin. -/
theorem c10_hist_update_inbounds (h : HState) (v : ℚ) (vs : List ℚ)
    (hfr : h.frqs.length = h.nbins) (hne : h.hmax ≠ h.hmin) :
    (addValue h v).frqs.length = h.nbins ∧
    (0 ≤ histBinIndex h v ∧ histBinIndex h v < (h.nbins : Int) →
      (histBinIndex h v).toNat < h.frqs.length ∧
      (addValue h v).frqs =
        h.frqs.set (histBinIndex h v).toNat (h.frqs.getD (histBinIndex h v).toNat 0 + 1)) ∧
    (histCallOne h vs).entries = h.entries + vs.length ∧
    (¬(0 ≤ histBinIndex h v ∧ histBinIndex h v < (h.nbins : Int)) →
      histCallOne h [v] = { h with entries := h.entries + 1 }) := by
  refine ⟨?_, ?_, ?_, ?_⟩
  · simp only [addValue]
    split
    · simpa using hfr
    · exact hfr
  · intro hin
    refine ⟨by rw [hfr]; omega, ?_⟩
    simp only [addValue]
    rw [if_pos hin]
  · simp only [histCallOne]
    rw [foldl_addValue_entries]
  · intro hout
    have hbi : histBinIndex { h with entries := h.entries + 1 } v = histBinIndex h v := rfl
    simp only [histCallOne, List.length_cons, List.length_nil, List.foldl_cons, List.foldl_nil]
    simp only [addValue, hbi]
    rw [if_neg hout]

/-- C3: for every worker definition with a buffer assigned the role
`read`, setup calls `new_reader_group` exactly once on that buffer (the
allocation trace, and thus the reader-group calls, are independent of the
replication count `num_process`), all `num_process` replicas are created
with the very same endpoint bundle, and source/sink/observer lists that
would be empty are the `None` sentinel, never an empty list. -/
theorem c3_reader_group_once (w : WorkerDef) (commonVar : Option YVal) (fs : FS)
    (env : ModEnv) (cwd od : String) (rbs : RBStates) (n m : Nat) (b : String)
    (out : WorkerOut) (rbs' : RBStates)
    (hnd : ((w.RB_assign.getD []).map Prod.fst).Nodup)
    (hok : setupOneWorker w commonVar fs env cwd od rbs = .ok (out, rbs')) :
    out.allocs.count (Alloc.readerGroup w.fkt_name b) =
      (if (b, "read") ∈ w.RB_assign.getD [] then 1 else 0) ∧
    ((setupOneWorker { w with num_process := n } commonVar fs env cwd od rbs).map
        (fun x => (x.1.allocs, x.1.copies, x.2)) =
      (setupOneWorker { w with num_process := m } commonVar fs env cwd od rbs).map
        (fun x => (x.1.allocs, x.1.copies, x.2))) ∧
    out.procs.length = w.num_process ∧
    (∀ p1 ∈ out.procs, ∀ p2 ∈ out.procs, p1 = p2) ∧
    (∀ p ∈ out.procs, p.sources ≠ some [] ∧ p.sinks ≠ some [] ∧ p.observers ≠ some []) := by
  obtain ⟨cfg0, cps, cfg, ss, ks, obs, evs, pf, hc, hs, ha, hi, hout⟩ :=
    setupOneWorker_ok_parts w commonVar fs env cwd od rbs rbs' out hok
  subst hout
  obtain ⟨hevs, -, -, -⟩ :=
    allocEndpoints_ok_spec w.fkt_name (w.RB_assign.getD []) rbs ss ks obs evs rbs' ha
  refine ⟨?_, ?_, ?_, ?_, ?_⟩
  · show evs.count _ = _
    rw [hevs]
    exact roleAlloc_count w.fkt_name b (w.RB_assign.getD []) hnd
  · obtain ⟨fn, fk, np, rba, cfl⟩ := w
    have hc1 : resolveWorkerConfig ⟨fn, fk, n, rba, cfl⟩ commonVar fs cwd od =
        .ok (cfg0, cps) := hc
    have hc2 : resolveWorkerConfig ⟨fn, fk, m, rba, cfl⟩ commonVar fs cwd od =
        .ok (cfg0, cps) := hc
    have ha' : allocEndpoints fk (rba.getD []) rbs = .ok (ss, ks, obs, evs, rbs') := ha
    have hi' : import_function env fn fk = .ok pf := hi
    simp only [setupOneWorker, hc1, hc2, hs, ha', hi', Except.map]
  · simp
  · intro p1 hp1 p2 hp2
    have e1 := List.eq_of_mem_replicate (show p1 ∈ List.replicate w.num_process _ from by
      simpa using hp1)
    have e2 := List.eq_of_mem_replicate (show p2 ∈ List.replicate w.num_process _ from by
      simpa using hp2)
    rw [e1, e2]
  · intro p hp
    have e := List.eq_of_mem_replicate (show p ∈ List.replicate w.num_process _ from by
      simpa using hp)
    rw [e]
    refine ⟨?_, ?_, ?_⟩
    · show (if ss = [] then none else some ss) ≠ some []
      by_cases hss : ss = []
      · rw [if_pos hss]
        simp
      · rw [if_neg hss]
        intro hcon
        injection hcon with h'
        exact hss h'
    · show (if ks = [] then none else some ks) ≠ some []
      by_cases hks : ks = []
      · rw [if_pos hks]
        simp
      · rw [if_neg hks]
        intro hcon
        injection hcon with h'
        exact hks h'
    · show (if obs = [] then none else some obs) ≠ some []
      by_cases hobs : obs = []
      · rw [if_pos hobs]
        simp
      · rw [if_neg hobs]
        intro hcon
        injection hcon with h'
        exact hobs h'

theorem c3_reader_group_once_witness :
    (((wRead.RB_assign.getD []).map Prod.fst).Nodup ∧
      setupOneWorker wRead none fsW env5 "/cwd" "target/x/" (initRBStates ["RB_1"]) =
        .ok (outRead, rbsAfterRead)) ∧
    (outRead.allocs.count (Alloc.readerGroup wRead.fkt_name "RB_1") =
        (if ("RB_1", "read") ∈ wRead.RB_assign.getD [] then 1 else 0) ∧
      ((setupOneWorker { wRead with num_process := 5 } none fsW env5 "/cwd" "target/x/"
            (initRBStates ["RB_1"])).map (fun x => (x.1.allocs, x.1.copies, x.2)) =
        (setupOneWorker { wRead with num_process := 7 } none fsW env5 "/cwd" "target/x/"
            (initRBStates ["RB_1"])).map (fun x => (x.1.allocs, x.1.copies, x.2))) ∧
      outRead.procs.length = wRead.num_process ∧
      (∀ p1 ∈ outRead.procs, ∀ p2 ∈ outRead.procs, p1 = p2) ∧
      (∀ p ∈ outRead.procs,
        p.sources ≠ some [] ∧ p.sinks ≠ some [] ∧ p.observers ≠ some [])) :=
  ⟨⟨by decide, rfl⟩,
    c3_reader_group_once wRead none fsW env5 "/cwd" "target/x/" (initRBStates ["RB_1"]) 5 7
      "RB_1" outRead rbsAfterRead (by decide) rfl⟩

/-- C6, counterexample: a worker whose only `RB_assign` entry maps the
undefined buffer `RB_9` to the unknown role string `"reed"` does not abort
setup: `setup_workers` succeeds, allocates no endpoint, and still creates
the worker process — contradicting "aborts with a diagnostic before any
worker process is started". -/
theorem c6_counterexample :
    (setup_workers bc6bad bc6bad.functions_dict fsW env5 "/cwd" ["RB_1"]).map
        (fun r => (r.process_list.length, r.allocs)) = .ok (1, []) := rfl

/-- C6, amended: an invalid `data_type` is fatal in `setup_buffers`, and an
undefined buffer name assigned one of the recognized roles
read/write/observe is fatal in `setup_workers` (success implies every data
type lowers and every recognized-role buffer name is defined); any setup
error aborts the run before any worker process is started.  An unknown
role string, however, is not fatal: its assignment entry is silently
skipped by the endpoint allocation. -/
theorem c6_amended_setup_errors (bd : List (String × RBSpec)) (rbs : List RingBuf)
    (w : WorkerDef) (commonVar : Option YVal) (fs : FS) (env : ModEnv) (cwd od : String)
    (rbsSt rbsSt' : RBStates) (out : WorkerOut) (b role : String)
    (h1 : setup_buffers bd = .ok rbs)
    (h2 : setupOneWorker w commonVar fs env cwd od rbsSt = .ok (out, rbsSt'))
    (h3 : (b, role) ∈ w.RB_assign.getD []) :
    (∀ e ∈ bd, ∃ dt, mkDtype e.2.data_type = .ok dt) ∧
    (role = "read" ∨ role = "write" ∨ role = "observe" →
      (lookupStr rbsSt b).isSome = true) ∧
    (∀ (fkt : String) (rest : List (String × String)) (rbs0 : RBStates) (b0 r0 : String),
      r0 ≠ "read" → r0 ≠ "write" → r0 ≠ "observe" →
      allocEndpoints fkt ((b0, r0) :: rest) rbs0 = allocEndpoints fkt rest rbs0) ∧
    (∀ (sf : String) (t : TimeStamp) (bc : buffer_control) (g : FunctionsDict) (fs2 : FS)
        (env2 : ModEnv) (cwd2 : String) (e : PyErr) (nm : String),
      (main_flow sf t bc g fs2 env2 cwd2).2 = some e →
      Event.startProc nm ∉ (main_flow sf t bc g fs2 env2 cwd2).1) := by
  obtain ⟨cfg0, cps, cfg, ss, ks, obs, evs, pf, hc, hs, ha, hi, hout⟩ :=
    setupOneWorker_ok_parts w commonVar fs env cwd od rbsSt rbsSt' out h2
  refine ⟨setup_buffers_from_ok_dtypes 1 bd rbs h1, ?_, ?_, ?_⟩
  · intro hrole
    obtain ⟨-, -, hlook, -⟩ :=
      allocEndpoints_ok_spec w.fkt_name (w.RB_assign.getD []) rbsSt ss ks obs evs rbsSt' ha
    exact hlook b role h3 hrole
  · intro fkt rest rbs0 b0 r0 hr1 hr2 hr3
    rw [allocEndpoints, if_neg hr1, if_neg hr2, if_neg hr3]
  · intro sf t bc g fs2 env2 cwd2 e nm he
    exact main_flow_error_no_start sf t bc g fs2 env2 cwd2 e nm he

theorem c6_amended_setup_errors_witness :
    (setup_buffers rb1spec = .ok rb1built ∧
      setupOneWorker wRead none fsW env5 "/cwd" "target/x/" (initRBStates ["RB_1"]) =
        .ok (outRead, rbsAfterRead) ∧
      ("RB_1", "read") ∈ wRead.RB_assign.getD []) ∧
    ((∀ e ∈ rb1spec, ∃ dt, mkDtype e.2.data_type = .ok dt) ∧
      ("read" = "read" ∨ "read" = "write" ∨ "read" = "observe" →
        (lookupStr (initRBStates ["RB_1"]) "RB_1").isSome = true) ∧
      (∀ (fkt : String) (rest : List (String × String)) (rbs0 : RBStates) (b0 r0 : String),
        r0 ≠ "read" → r0 ≠ "write" → r0 ≠ "observe" →
        allocEndpoints fkt ((b0, r0) :: rest) rbs0 = allocEndpoints fkt rest rbs0) ∧
      (∀ (sf : String) (t : TimeStamp) (bc : buffer_control) (g : FunctionsDict) (fs2 : FS)
          (env2 : ModEnv) (cwd2 : String) (e : PyErr) (nm : String),
        (main_flow sf t bc g fs2 env2 cwd2).2 = some e →
        Event.startProc nm ∉ (main_flow sf t bc g fs2 env2 cwd2).1)) :=
  ⟨⟨rfl, rfl, by decide⟩,
    c6_amended_setup_errors rb1spec rb1built wRead none fsW env5 "/cwd" "target/x/"
      (initRBStates ["RB_1"]) rbsAfterRead outRead "RB_1" "read" rfl rfl (by decide)⟩

/-- C7, counterexample: a worker whose module cannot be imported is not
fatal at setup: `import_function` swallows the `ImportError` and returns
`None`, and `setup_workers` succeeds, creating the worker process with a
`None` target — contradicting "no worker processes are created or started
for a topology containing an unresolvable callable". -/
theorem c7_counterexample :
    (setup_workers bc7mod bc7mod.functions_dict fsW [] "/cwd" ["RB_1"]).map
        (fun r => r.process_list.map (fun p => p.target)) = .ok [none] := rfl

/-- C7, amended: only an unresolvable callable name inside a resolvable
module is fatal at setup — `vars(module)[function_name]` raises an
uncaught `KeyError`, so `setupOneWorker` cannot succeed, and a setup error
aborts the run before any worker process is started.  An unresolvable
module is not fatal: `import_function` returns `None` and worker processes
are still created with a `None` target. -/
theorem c7_amended_import_failure (env : ModEnv) (w : WorkerDef) (names : List String)
    (commonVar : Option YVal) (fs : FS) (cwd od : String) (rbsSt rbsSt' : RBStates)
    (out : WorkerOut)
    (hmod : lookupStr env (pyName w.file_name) = some names)
    (hmiss : w.fkt_name ∉ names) :
    import_function env w.file_name w.fkt_name = .error (.keyError w.fkt_name) ∧
    setupOneWorker w commonVar fs env cwd od rbsSt ≠ .ok (out, rbsSt') ∧
    (∀ (env2 : ModEnv) (mp f2 : String), lookupStr env2 (pyName mp) = none →
      import_function env2 mp f2 = .ok none) ∧
    (∀ (sf : String) (t : TimeStamp) (bc : buffer_control) (g : FunctionsDict) (fs2 : FS)
        (env2 : ModEnv) (cwd2 : String) (e : PyErr) (nm : String),
      (main_flow sf t bc g fs2 env2 cwd2).2 = some e →
      Event.startProc nm ∉ (main_flow sf t bc g fs2 env2 cwd2).1) := by
  have himp : import_function env w.file_name w.fkt_name =
      .error (.keyError w.fkt_name) := by
    simp only [import_function, hmod]
    rw [if_neg (by simpa using hmiss)]
  refine ⟨himp, ?_, ?_, ?_⟩
  · intro hok
    obtain ⟨cfg0, cps, cfg, ss, ks, obs, evs, pf, hc, hs, ha, hi, hout⟩ :=
      setupOneWorker_ok_parts w commonVar fs env cwd od rbsSt rbsSt' out hok
    rw [himp] at hi
    exact absurd hi (by simp)
  · intro env2 mp f2 hnone
    simp [import_function, hnone]
  · intro sf t bc g fs2 env2 cwd2 e nm he
    exact main_flow_error_no_start sf t bc g fs2 env2 cwd2 e nm he

theorem c7_amended_import_failure_witness :
    (lookupStr ([("mod.py", ["other"])] : ModEnv) (pyName w7fkt.file_name) =
        some ["other"] ∧
      w7fkt.fkt_name ∉ (["other"] : List String)) ∧
    (import_function [("mod.py", ["other"])] w7fkt.file_name w7fkt.fkt_name =
        .error (.keyError w7fkt.fkt_name) ∧
      setupOneWorker w7fkt none fsW [("mod.py", ["other"])] "/cwd" "target/x/"
          (initRBStates ["RB_1"]) ≠ .ok (⟨[], [], []⟩, initRBStates ["RB_1"]) ∧
      (∀ (env2 : ModEnv) (mp f2 : String), lookupStr env2 (pyName mp) = none →
        import_function env2 mp f2 = .ok none) ∧
      (∀ (sf : String) (t : TimeStamp) (bc : buffer_control) (g : FunctionsDict) (fs2 : FS)
          (env2 : ModEnv) (cwd2 : String) (e : PyErr) (nm : String),
        (main_flow sf t bc g fs2 env2 cwd2).2 = some e →
        Event.startProc nm ∉ (main_flow sf t bc g fs2 env2 cwd2).1)) :=
  ⟨⟨rfl, by decide⟩,
    c7_amended_import_failure [("mod.py", ["other"])] w7fkt ["other"] none fsW "/cwd"
      "target/x/" (initRBStates ["RB_1"]) (initRBStates ["RB_1"]) ⟨[], [], []⟩ rfl (by decide)⟩

/-- C4: in batch mode (`runtime == 0`) the supervision loop stops exactly
at the first status sample on which some worker process has exit code 0
(running processes report `none` and non-zero exits do not stop it; if a
sample shows exit code 0 the loop does stop), and after the loop the
controller pauses the head buffer `RB_1` before any buffer shutdown or
process join happens. -/
theorem c4_batch_mode_termination (snaps : List (List (Option Int))) (k : Nat)
    (ns : List String) (pl : List Proc)
    (h : batch_loop snaps = some k) :
    (∃ s, snaps[k]? = some s ∧ ∃ c ∈ s, c = some 0) ∧
    (∀ j s', j < k → snaps[j]? = some s' → ∀ c ∈ s', c ≠ some 0) ∧
    (∀ ss : List (List (Option Int)), ∀ (i : Nat) (s' : List (Option Int)),
      ss[i]? = some s' → (some 0 : Option Int) ∈ s' → batch_loop ss ≠ none) ∧
    (batch_post_trace ns pl)[0]? = some (Event.pauseBuf "RB_1") ∧
    (∀ j b, (batch_post_trace ns pl)[j]? = some (Event.shutdownBuf b) → 0 < j) ∧
    (∀ j q, (batch_post_trace ns pl)[j]? = some (Event.joinProc q) → 0 < j) := by
  obtain ⟨⟨s, hs, hz⟩, hbefore⟩ := batch_loop_some_spec snaps k h
  refine ⟨⟨s, hs, (hasExitZero_iff s).mp hz⟩, ?_, batch_loop_zero_stops, by
    simp [batch_post_trace], ?_, ?_⟩
  · intro j s' hj hjs c hc hcz
    have hz' := hbefore j s' hj hjs
    exact absurd ((hasExitZero_iff s').mpr ⟨c, hc, hcz⟩) (by simp [hz'])
  · intro j b hj
    cases j with
    | zero => simp [batch_post_trace] at hj
    | succ j' => exact Nat.succ_pos j'
  · intro j q hj
    cases j with
    | zero => simp [batch_post_trace] at hj
    | succ j' => exact Nat.succ_pos j'

theorem c4_batch_mode_termination_witness :
    batch_loop [[some 1, none], [none, some 0]] = some 1 ∧
    ((∃ s, ([[some 1, none], [none, some 0]] : List (List (Option Int)))[1]? = some s ∧
        ∃ c ∈ s, c = some 0) ∧
      (∀ j s', j < 1 → ([[some 1, none], [none, some 0]] :
          List (List (Option Int)))[j]? = some s' → ∀ c ∈ s', c ≠ some 0) ∧
      (∀ ss : List (List (Option Int)), ∀ (i : Nat) (s' : List (Option Int)),
        ss[i]? = some s' → (some 0 : Option Int) ∈ s' → batch_loop ss ≠ none) ∧
      (batch_post_trace ["RB_1"] [pA])[0]? = some (Event.pauseBuf "RB_1") ∧
      (∀ j b, (batch_post_trace ["RB_1"] [pA])[j]? = some (Event.shutdownBuf b) → 0 < j) ∧
      (∀ j q, (batch_post_trace ["RB_1"] [pA])[j]? = some (Event.joinProc q) → 0 < j)) :=
  ⟨by decide,
    c4_batch_mode_termination [[some 1, none], [none, some 0]] 1 ["RB_1"] [pA] (by decide)⟩

/-- C5: how `setup_workers` resolves a worker's configuration.  A
per-worker `config_file` wins and `directory_prefix` is injected, and the
referenced file is copied into the output directory; with a common config
file whose sections lack the callable name, the configuration falls back
to empty (plus the injected `directory_prefix`).  But in the remaining
case the claim's "otherwise an empty configuration" fails: when no common
config file is configured and a worker has no per-worker `config_file`,
the read of `config_dict_common` raises an uncaught `UnboundLocalError`
(`except (KeyError, TypeError)` does not catch it) and setup aborts. -/
theorem c5_config_resolution :
    setup_workers bc5none bc5none.functions_dict [] env5 "/cwd" ["RB_1"] =
      .error (.nameError "config_dict_common") ∧
    ((setup_workers bc5per bc5per.functions_dict fs5 env5 "/cwd" ["RB_1"]).map
        (fun r => r.process_list.map (fun p => p.config))) =
      .ok [.ydict [("gain", .yint 3), ("directory_prefix", .ystr "target/x/")]] ∧
    ((setup_workers bc5com bc5com.functions_dict fs5c env5 "/cwd" ["RB_1"]).map
        (fun r => r.process_list.map (fun p => p.config))) =
      .ok [.ydict [("directory_prefix", .ystr "target/x/")]] ∧
    ((setup_workers bc5per bc5per.functions_dict fs5 env5 "/cwd" ["RB_1"]).map
        (fun r => r.copies)) =
      .ok [("/cwd/w.yaml", "target/x/w.yaml")] :=
  ⟨rfl, rfl, rfl, rfl⟩

/-- C8, counterexample: for the setup file `spam_setup.yaml` started at
2026-01-02 03:04:05, the created directory is
`target/spam_2026-01-02_030405/` — the stem is truncated at `"setup"` —
and not `target/spam_setup_2026-01-02_030405/` as the claim's
`target/<setup-stem>_<YYYY-MM-DD_HHMMSS>/` states. -/
theorem c8_counterexample :
    targetDirOf "spam_setup.yaml" ⟨2026, 1, 2, 3, 4, 5⟩ =
      "target/spam_2026-01-02_030405/" ∧
    targetDirOf "spam_setup.yaml" ⟨2026, 1, 2, 3, 4, 5⟩ ≠
      "target/spam_setup_2026-01-02_030405/" := by
  exact ⟨by decide, by decide⟩

/-- C8, amended: the main script creates the output directory
`target/<prefix><YYYY-MM-DD_HHMMSS>/` where `prefix` is the setup-file
stem truncated just before the first occurrence of `"setup"` (and it is
the stem minus its final character when `"setup"` does not occur), the
directory is created with mode `0o770`, and the setup file is copied into
the directory before any worker process is started. -/
theorem c8_amended_directory_layout (p : String) (t : TimeStamp) (n : Nat)
    (hocc : findSub ("setup".toList) (pyStem p).toList = some n) :
    ("setup".toList).isPrefixOf ((pyStem p).toList.drop n) = true ∧
    (∀ m, m < n → ("setup".toList).isPrefixOf ((pyStem p).toList.drop m) = false) ∧
    targetDirOf p t = "target/" ++ ((pyStem p).toList.take n).asString ++ timeCode t ++ "/" ∧
    (∀ q : String, findSub ("setup".toList) (pyStem q).toList = none →
      targetDirOf q t =
        "target/" ++ ((pyStem q).toList.dropLast).asString ++ timeCode t ++ "/") ∧
    (∀ cwd, (main_pre_trace p t cwd)[0]? = some (Event.mkdirEv (targetDirOf p t) 0o770) ∧
      (main_pre_trace p t cwd)[1]? =
        some (Event.copyEv (abspathIn cwd p) (dirnameOf (targetDirOf p t) ++ "/" ++ p))) ∧
    (∀ (cwd : String) (bc : buffer_control) (g : FunctionsDict) (fs : FS) (env : ModEnv)
        (i j : Nat) (src dest nm : String),
      (main_flow p t bc g fs env cwd).1[i]? = some (Event.copyEv src dest) →
      (main_flow p t bc g fs env cwd).1[j]? = some (Event.startProc nm) → i < j) := by
  obtain ⟨hpre, hfirst⟩ := findSub_some_first ("setup".toList) (pyStem p).toList n hocc
  refine ⟨hpre, hfirst, targetDirOf_eq_take p t n hocc, ?_, ?_, ?_⟩
  · intro q hq
    exact targetDirOf_eq_dropLast q t hq
  · intro cwd
    exact ⟨rfl, rfl⟩
  · intro cwd bc g fs env i j src dest nm h1 h2
    exact main_flow_copy_lt_start p t bc g fs env cwd i j src dest nm h1 h2

theorem c8_amended_directory_layout_witness :
    findSub ("setup".toList) (pyStem "spam_setup.yaml").toList = some 5 ∧
    (("setup".toList).isPrefixOf ((pyStem "spam_setup.yaml").toList.drop 5) = true ∧
      (∀ m, m < 5 →
        ("setup".toList).isPrefixOf ((pyStem "spam_setup.yaml").toList.drop m) = false) ∧
      targetDirOf "spam_setup.yaml" ⟨2026, 1, 2, 3, 4, 5⟩ =
        "target/" ++ ((pyStem "spam_setup.yaml").toList.take 5).asString ++
          timeCode ⟨2026, 1, 2, 3, 4, 5⟩ ++ "/" ∧
      (∀ q : String, findSub ("setup".toList) (pyStem q).toList = none →
        targetDirOf q ⟨2026, 1, 2, 3, 4, 5⟩ =
          "target/" ++ ((pyStem q).toList.dropLast).asString ++
            timeCode ⟨2026, 1, 2, 3, 4, 5⟩ ++ "/") ∧
      (∀ cwd, (main_pre_trace "spam_setup.yaml" ⟨2026, 1, 2, 3, 4, 5⟩ cwd)[0]? =
          some (Event.mkdirEv (targetDirOf "spam_setup.yaml" ⟨2026, 1, 2, 3, 4, 5⟩) 0o770) ∧
        (main_pre_trace "spam_setup.yaml" ⟨2026, 1, 2, 3, 4, 5⟩ cwd)[1]? =
          some (Event.copyEv (abspathIn cwd "spam_setup.yaml")
            (dirnameOf (targetDirOf "spam_setup.yaml" ⟨2026, 1, 2, 3, 4, 5⟩) ++ "/" ++
              "spam_setup.yaml"))) ∧
      (∀ (cwd : String) (bc : buffer_control) (g : FunctionsDict) (fs : FS) (env : ModEnv)
          (i j : Nat) (src dest nm : String),
        (main_flow "spam_setup.yaml" ⟨2026, 1, 2, 3, 4, 5⟩ bc g fs env cwd).1[i]? =
          some (Event.copyEv src dest) →
        (main_flow "spam_setup.yaml" ⟨2026, 1, 2, 3, 4, 5⟩ bc g fs env cwd).1[j]? =
          some (Event.startProc nm) → i < j)) :=
  ⟨by decide, c8_amended_directory_layout "spam_setup.yaml" ⟨2026, 1, 2, 3, 4, 5⟩ 5 (by decide)⟩

theorem c10_hist_update_inbounds_witness :
    (([(0 : ℚ), 0, 0, 0, 0] : List ℚ).length = 5 ∧ (10 : ℚ) ≠ 0) ∧
    ((addValue ⟨0, 10, 5, [0, 0, 0, 0, 0], 0⟩ 3).frqs.length = 5 ∧
      (0 ≤ histBinIndex ⟨0, 10, 5, [0, 0, 0, 0, 0], 0⟩ 3 ∧
          histBinIndex ⟨0, 10, 5, [0, 0, 0, 0, 0], 0⟩ 3 < (5 : Int) →
        (histBinIndex ⟨0, 10, 5, [0, 0, 0, 0, 0], 0⟩ 3).toNat <
            ([(0 : ℚ), 0, 0, 0, 0] : List ℚ).length ∧
        (addValue ⟨0, 10, 5, [0, 0, 0, 0, 0], 0⟩ 3).frqs =
          ([(0 : ℚ), 0, 0, 0, 0] : List ℚ).set
            (histBinIndex ⟨0, 10, 5, [0, 0, 0, 0, 0], 0⟩ 3).toNat
            (([(0 : ℚ), 0, 0, 0, 0] : List ℚ).getD
              (histBinIndex ⟨0, 10, 5, [0, 0, 0, 0, 0], 0⟩ 3).toNat 0 + 1)) ∧
      (histCallOne ⟨0, 10, 5, [0, 0, 0, 0, 0], 0⟩ [1, 2]).entries = 0 + ([(1 : ℚ), 2].length) ∧
      (¬(0 ≤ histBinIndex ⟨0, 10, 5, [0, 0, 0, 0, 0], 0⟩ 3 ∧
            histBinIndex ⟨0, 10, 5, [0, 0, 0, 0, 0], 0⟩ 3 < (5 : Int)) →
        histCallOne ⟨0, 10, 5, [0, 0, 0, 0, 0], 0⟩ [3] =
          { hmin := 0, hmax := 10, nbins := 5, frqs := [0, 0, 0, 0, 0], entries := 0 + 1 })) :=
  ⟨⟨by decide, by norm_num⟩,
    c10_hist_update_inbounds ⟨0, 10, 5, [0, 0, 0, 0, 0], 0⟩ 3 [1, 2] (by decide) (by norm_num)⟩

end Mimo
